import Mathlib

/-! Formal model of the book-catalog store implemented in `src/src/main.rs`.

The program keeps a `Bibliotheque` — a vector of `Livre` records together
with the path of a backing file — and persists the whole catalog to that
file as JSON after every mutation.  The catalog logic (`charger_donnees`,
`sauvegarder_donnees`, `ajouter_livre`, `rechercher_par_titre`,
`rechercher_par_isbn`, `retirer_livre`, `Bibliotheque::new`) is translated
function by function from the Rust source.  The external environment — the
`std::fs` module and the `serde_json` crate — is modelled by an explicit
`World` state holding the backing file's content as an abstract JSON value
tree, following the external-format contract of the specification. -/

/-- A book record, translated from `struct Livre` (src/src/main.rs lines
9–14): `titre`, `auteur`, `isbn` are strings; `annee_publication` is a Rust
`u32`, modelled as `Nat` (the program does no arithmetic on it, so machine
overflow never arises). -/
structure Livre where
  titre : String
  auteur : String
  isbn : String
  annee_publication : Nat
deriving DecidableEq, Repr

/-- Modelled from the spec: the JSON value layer of the external
`serde_json` crate (not part of this repository's source).  A parsed JSON
text is a value tree of strings, numbers, arrays and objects; the numbers
the program ever reads or writes are the non-negative `annee_publication`
values, so numbers are modelled as `Nat`. -/
inductive Json where
  | jstr (s : String)
  | jnum (n : Nat)
  | jarr (elems : List Json)
  | jobj (fields : List (String × Json))

/-- Modelled from the spec: `serde_json` serialization of one `Livre`.  The
spec fixes the persisted shape as an object with exactly the fields
`titre`, `auteur`, `isbn`, `annee_publication`, in that key order. -/
def encodeLivre (l : Livre) : Json :=
  .jobj [("titre", .jstr l.titre), ("auteur", .jstr l.auteur),
         ("isbn", .jstr l.isbn), ("annee_publication", .jnum l.annee_publication)]

/-- Modelled from the spec: serialization of the whole catalog, a JSON array
of the record objects in catalog order (an empty catalog serializes to the
empty array). -/
def encodeCatalog (ls : List Livre) : Json :=
  .jarr (ls.map encodeLivre)

/-- Modelled from the spec: `serde_json` deserialization of one `Livre`.
A value decodes exactly when it is an object of the contractual shape;
anything else is a parse failure. -/
def decodeLivre : Json → Option Livre
  | .jobj [("titre", .jstr t), ("auteur", .jstr a),
           ("isbn", .jstr i), ("annee_publication", .jnum n)] =>
    some { titre := t, auteur := a, isbn := i, annee_publication := n }
  | _ => none

/-- Decoding of a list of JSON values as a list of records: every element
must decode, in order. -/
def decodeLivreList : List Json → Option (List Livre)
  | [] => some []
  | j :: js =>
    match decodeLivre j, decodeLivreList js with
    | some l, some ls => some (l :: ls)
    | _, _ => none

/-- Modelled from the spec: `serde_json::from_str::<Vec<Livre>>` at the
value level — the text must be a JSON array whose elements all decode as
records. -/
def decodeCatalog : Json → Option (List Livre)
  | .jarr js => decodeLivreList js
  | _ => none

/-- Modelled from the spec: what `fs::read_to_string` can yield for the file
at the store's bound path: the empty text, a text that parses as a JSON
value, or a malformed text (non-empty and not valid JSON). -/
inductive Content where
  | emptyText
  | jsonText (j : Json)
  | malformedText

/-- Modelled from the spec: the state of the external environment seen by
the store.  `file` is the content of the backing file at the bound path
(`none` when the file does not exist); `writeOk` says whether `fs::write`
succeeds (it fails on permissions or a full disk — spec §7 WriteFailure).
Reads are modelled as succeeding whenever the file exists. -/
structure World where
  file : Option Content
  writeOk : Bool

/-- The failure conditions of the store, from spec §7: `parseFailure` is a
`serde_json` parse error propagated by the `?` in `charger_donnees`;
`writeFailure` an `fs::write` error propagated by the `?` in
`sauvegarder_donnees`; `invalidIndex` the `"Index invalide"` error built in
`retirer_livre` (src/src/main.rs line 82). -/
inductive Err where
  | parseFailure
  | writeFailure
  | invalidIndex
deriving DecidableEq, Repr

/-- The catalog store, translated from `struct Bibliotheque`
(src/src/main.rs lines 17–20): the in-memory record sequence and the bound
file path. -/
structure Bibliotheque where
  livres : List Livre
  fichier : String
deriving DecidableEq, Repr

/-- `Bibliotheque::charger_donnees` (src/src/main.rs lines 36–48): if the
file does not exist, return Ok leaving the catalog as it is; read the
content; if the content is empty, return Ok; otherwise parse it as a
`Vec<Livre>`, replacing `self.livres` on success and propagating the parse
error on failure. -/
def Bibliotheque.charger_donnees (b : Bibliotheque) (w : World) :
    Except Err Bibliotheque :=
  match w.file with
  | none => .ok b
  | some .emptyText => .ok b
  | some .malformedText => .error .parseFailure
  | some (.jsonText j) =>
    match decodeCatalog j with
    | some ls => .ok { b with livres := ls }
    | none => .error .parseFailure

/-- `Bibliotheque::sauvegarder_donnees` (src/src/main.rs lines 51–55):
serialize the whole catalog (serialization of these types never fails) and
overwrite the backing file, propagating a write error. -/
def Bibliotheque.sauvegarder_donnees (b : Bibliotheque) (w : World) :
    Except Err World :=
  if w.writeOk then
    .ok { w with file := some (.jsonText (encodeCatalog b.livres)) }
  else
    .error .writeFailure

/-- `Bibliotheque::new` (src/src/main.rs lines 24–33): start from an empty
catalog bound to the path, attempt `charger_donnees`, and swallow any load
failure (`unwrap_or_else` only prints a message), keeping the empty
catalog.  Construction never writes, so the world is returned unchanged. -/
def Bibliotheque.new (fichier : String) (w : World) : Bibliotheque × World :=
  let b : Bibliotheque := { livres := [], fichier := fichier }
  match b.charger_donnees w with
  | .ok b' => (b', w)
  | .error _ => (b, w)

/-- `Bibliotheque::ajouter_livre` (src/src/main.rs lines 58–62): push the
record onto the in-memory vector, then save.  The `?` on the save
propagates a write failure to the caller, but the push is not rolled back;
on a failed save the file is also unchanged. -/
def Bibliotheque.ajouter_livre (b : Bibliotheque) (livre : Livre) (w : World) :
    Bibliotheque × World × Option Err :=
  let b' : Bibliotheque := { b with livres := b.livres ++ [livre] }
  match b'.sauvegarder_donnees w with
  | .ok w' => (b', w', none)
  | .error e => (b', w, some e)

/-- Rust's `str::to_lowercase` (standard library), modelled character by
character over the string's characters with Lean's `Char.toLower` (the
program's case-insensitive comparisons; the locale-independent one-to-one
case mapping). -/
def lowered (s : String) : List Char :=
  s.data.map Char.toLower

/-- Rust's `str::contains` with a string pattern (standard library):
substring containment — some contiguous run of `hay` equals `needle`,
searched front to back. -/
def containsSub (hay needle : List Char) : Bool :=
  match hay with
  | [] => needle.isEmpty
  | c :: t => needle.isPrefixOf (c :: t) || containsSub t needle

/-- `Bibliotheque::rechercher_par_titre` (src/src/main.rs lines 65–70):
filter the catalog, keeping the records whose lowercased title contains the
lowercased query. -/
def Bibliotheque.rechercher_par_titre (b : Bibliotheque) (titre : String) :
    List Livre :=
  b.livres.filter (fun livre => containsSub (lowered livre.titre) (lowered titre))

/-- `Bibliotheque::rechercher_par_isbn` (src/src/main.rs lines 73–77): find
the first record whose lowercased isbn equals the lowercased query. -/
def Bibliotheque.rechercher_par_isbn (b : Bibliotheque) (isbn : String) :
    Option Livre :=
  b.livres.find? (fun livre => lowered livre.isbn == lowered isbn)

/-- `Bibliotheque::retirer_livre` (src/src/main.rs lines 80–87): an index
past the end is rejected with the `"Index invalide"` error before any state
changes; otherwise `Vec::remove(index)` deletes the element at `index`,
shifting the later elements down by one, and the catalog is saved, with the
same non-rollback behavior as `ajouter_livre`. -/
def Bibliotheque.retirer_livre (b : Bibliotheque) (index : Nat) (w : World) :
    Bibliotheque × World × Option Err :=
  if b.livres.length ≤ index then
    (b, w, some .invalidIndex)
  else
    let b' : Bibliotheque := { b with livres := b.livres.eraseIdx index }
    match b'.sauvegarder_donnees w with
    | .ok w' => (b', w', none)
    | .error e => (b', w, some e)

/-- A sequence of `ajouter_livre` calls, one per record of the list, each
threading the store and world produced by the previous one (errors are
reported per call and do not stop the sequence, as in the UI loop). -/
def addAll (b : Bibliotheque) (w : World) : List Livre → Bibliotheque × World
  | [] => (b, w)
  | l :: ls => addAll (b.ajouter_livre l w).1 (b.ajouter_livre l w).2.1 ls

/-- SearchByTitle as the specification words it (spec §4.1): keep exactly
the records whose lowercased title has the lowercased query as an infix
(case-insensitive substring containment), in original catalog order. -/
def searchByTitleSpec (b : Bibliotheque) (q : String) : List Livre :=
  b.livres.filter (fun livre => decide (lowered q <:+: lowered livre.titre))

/-! ### Helper lemmas -/

theorem decodeLivre_encodeLivre (l : Livre) : decodeLivre (encodeLivre l) = some l := rfl

theorem decodeCatalog_encodeCatalog (ls : List Livre) :
    decodeCatalog (encodeCatalog ls) = some ls := by
  simp only [decodeCatalog, encodeCatalog]
  induction ls with
  | nil => rfl
  | cons l t ih =>
    simp [decodeLivreList, decodeLivre_encodeLivre, ih]

theorem containsSub_iff (hay needle : List Char) :
    containsSub hay needle = true ↔ needle <:+: hay := by
  induction hay with
  | nil =>
    simp [containsSub, List.isEmpty_iff]
  | cons c t ih =>
    simp [containsSub, List.isPrefixOf_iff_prefix, ih, List.infix_cons_iff]

theorem containsSub_nil (hay : List Char) : containsSub hay [] = true := by
  simp [containsSub_iff]

/-! ### Claim theorems -/

/-- C2: for every catalog and every out-of-bounds index (index ≥ length,
including every index on an empty catalog), `retirer_livre` fails with the
invalid-index error and returns the catalog and the world unchanged — no
element is removed and no save is performed. -/
theorem retirer_livre_invalid_index (b : Bibliotheque) (i : Nat) (w : World)
    (h : b.livres.length ≤ i) :
    b.retirer_livre i w = (b, w, some .invalidIndex) := by
  simp [Bibliotheque.retirer_livre, h]

/-- Witness for C2: `retirer_livre 0` on an empty catalog fails with the
invalid-index error and changes nothing. -/
theorem retirer_livre_invalid_index_witness :
    (⟨[], "bibliotheque.json"⟩ : Bibliotheque).livres.length ≤ 0 ∧
    (⟨[], "bibliotheque.json"⟩ : Bibliotheque).retirer_livre 0 ⟨none, true⟩
      = (⟨[], "bibliotheque.json"⟩, ⟨none, true⟩, some .invalidIndex) :=
  ⟨by decide,
   retirer_livre_invalid_index ⟨[], "bibliotheque.json"⟩ 0 ⟨none, true⟩ (by decide)⟩

/-- C3: for every catalog and every valid zero-based index `i`,
`retirer_livre i` shrinks the catalog by exactly one, keeps every record
before position `i` at its position, moves every record formerly at a
position `j > i` to position `j - 1`, keeps the bound path, and saves the
shrunken catalog (when the write succeeds the call succeeds and the file
holds the serialized result). -/
theorem retirer_livre_valid (b : Bibliotheque) (i : Nat) (w : World)
    (h : i < b.livres.length) :
    (b.retirer_livre i w).1.livres.length = b.livres.length - 1 ∧
    (∀ j, j < i → (b.retirer_livre i w).1.livres[j]? = b.livres[j]?) ∧
    (∀ j, i < j → j < b.livres.length →
      (b.retirer_livre i w).1.livres[j - 1]? = b.livres[j]?) ∧
    (b.retirer_livre i w).1.fichier = b.fichier ∧
    (w.writeOk = true →
      (b.retirer_livre i w).2.2 = none ∧
      (b.retirer_livre i w).2.1.file
        = some (.jsonText (encodeCatalog (b.retirer_livre i w).1.livres))) := by
  have hnot : ¬ b.livres.length ≤ i := by omega
  have h1 : (b.retirer_livre i w).1 = ⟨b.livres.eraseIdx i, b.fichier⟩ := by
    unfold Bibliotheque.retirer_livre Bibliotheque.sauvegarder_donnees
    rw [if_neg hnot]
    cases w.writeOk <;> simp
  refine ⟨?_, ?_, ?_, ?_, ?_⟩
  · rw [h1]
    simp [List.length_eraseIdx, h]
  · intro j hj
    rw [h1]
    simp [List.getElem?_eraseIdx, hj]
  · intro j hij hjl
    rw [h1]
    show (b.livres.eraseIdx i)[j - 1]? = b.livres[j]?
    rw [List.getElem?_eraseIdx, if_neg (by omega)]
    congr 1
    omega
  · rw [h1]
  · intro hw
    unfold Bibliotheque.retirer_livre Bibliotheque.sauvegarder_donnees
    rw [if_neg hnot]
    simp [hw]

/-- Witness for C3: removing index 0 from a two-record catalog leaves one
record. -/
theorem retirer_livre_valid_witness :
    0 < (⟨[⟨"Dune", "Frank Herbert", "0441013597", 1965⟩,
           ⟨"1984", "George Orwell", "0451524935", 1949⟩],
          "bibliotheque.json"⟩ : Bibliotheque).livres.length ∧
    ((⟨[⟨"Dune", "Frank Herbert", "0441013597", 1965⟩,
           ⟨"1984", "George Orwell", "0451524935", 1949⟩],
          "bibliotheque.json"⟩ : Bibliotheque).retirer_livre 0 ⟨none, true⟩).1.livres.length
      = (⟨[⟨"Dune", "Frank Herbert", "0441013597", 1965⟩,
           ⟨"1984", "George Orwell", "0451524935", 1949⟩],
          "bibliotheque.json"⟩ : Bibliotheque).livres.length - 1 :=
  ⟨by decide,
   (retirer_livre_valid
     ⟨[⟨"Dune", "Frank Herbert", "0441013597", 1965⟩,
       ⟨"1984", "George Orwell", "0451524935", 1949⟩], "bibliotheque.json"⟩
     0 ⟨none, true⟩ (by decide)).1⟩

/-- C4: `ajouter_livre` appends the record at the end of the in-memory
sequence and then saves; when the write succeeds the call succeeds and the
file holds the serialized appended catalog; when the write fails the call
reports the write failure and the file is untouched — but the appended
record stays in memory in both cases (no rollback). -/
theorem ajouter_livre_spec (b : Bibliotheque) (l : Livre) (w : World) :
    (b.ajouter_livre l w).1.livres = b.livres ++ [l] ∧
    (b.ajouter_livre l w).1.fichier = b.fichier ∧
    (w.writeOk = true →
      (b.ajouter_livre l w).2.2 = none ∧
      (b.ajouter_livre l w).2.1.file
        = some (.jsonText (encodeCatalog (b.livres ++ [l])))) ∧
    (w.writeOk = false →
      (b.ajouter_livre l w).2.2 = some .writeFailure ∧
      (b.ajouter_livre l w).2.1 = w) := by
  unfold Bibliotheque.ajouter_livre Bibliotheque.sauvegarder_donnees
  cases hwo : w.writeOk <;> simp [hwo]

/-- C5: `rechercher_par_titre` returns exactly the records whose title
contains the query as a case-insensitive substring — stated through the
spec-side filter `searchByTitleSpec`, which uses infix containment of the
lowercased character sequences — keeps the original catalog order (the
result is a sublist of the catalog), and on the empty query returns every
record in original order. -/
theorem rechercher_par_titre_spec (b : Bibliotheque) (q : String) :
    b.rechercher_par_titre q = searchByTitleSpec b q ∧
    (b.rechercher_par_titre q).Sublist b.livres ∧
    b.rechercher_par_titre "" = b.livres := by
  refine ⟨?_, ?_, ?_⟩
  · unfold Bibliotheque.rechercher_par_titre searchByTitleSpec
    refine List.filter_congr fun l _ => ?_
    rw [Bool.eq_iff_iff, containsSub_iff, decide_eq_true_iff]
  · exact List.filter_sublist _
  · unfold Bibliotheque.rechercher_par_titre
    have hq : lowered "" = [] := rfl
    simp [hq, containsSub_nil]

/-- C6: `rechercher_par_isbn` matches by case-insensitive exact equality of
isbns: a returned record is in the catalog and its lowercased isbn equals
the lowercased query; the result is `none` exactly when no record's
lowercased isbn equals the lowercased query (absence, not a failure); and
concretely a record with isbn "ABC-123" is found by the query "abc-123"
but not by the query "ABC-12". -/
theorem rechercher_par_isbn_spec (b : Bibliotheque) (q : String) :
    (∀ l, b.rechercher_par_isbn q = some l →
      l ∈ b.livres ∧ lowered l.isbn = lowered q) ∧
    (b.rechercher_par_isbn q = none ↔
      ∀ l ∈ b.livres, lowered l.isbn ≠ lowered q) ∧
    Bibliotheque.rechercher_par_isbn
        ⟨[⟨"Dune", "Frank Herbert", "ABC-123", 1965⟩], "bibliotheque.json"⟩ "abc-123"
      = some ⟨"Dune", "Frank Herbert", "ABC-123", 1965⟩ ∧
    Bibliotheque.rechercher_par_isbn
        ⟨[⟨"Dune", "Frank Herbert", "ABC-123", 1965⟩], "bibliotheque.json"⟩ "ABC-12"
      = none := by
  refine ⟨?_, ?_, by decide, by decide⟩
  · intro l hl
    unfold Bibliotheque.rechercher_par_isbn at hl
    refine ⟨List.mem_of_find?_eq_some hl, ?_⟩
    have := List.find?_some hl
    simpa using this
  · unfold Bibliotheque.rechercher_par_isbn
    rw [List.find?_eq_none]
    simp

/-- Helper for C10: `List.find?` returns the element at the smallest index
satisfying the predicate. -/
theorem find?_eq_of_first_index {α : Type} (p : α → Bool) :
    ∀ (xs : List α) (i : Nat) (x : α), xs[i]? = some x → p x = true →
      (∀ j y, j < i → xs[j]? = some y → p y = false) →
      xs.find? p = some x := by
  intro xs
  induction xs with
  | nil => intro i x hx; simp at hx
  | cons a t ih =>
    intro i x hx hp hbefore
    cases i with
    | zero =>
      simp only [List.getElem?_cons_zero, Option.some.injEq] at hx
      subst hx
      simp [List.find?_cons, hp]
    | succ n =>
      have ha : p a = false :=
        hbefore 0 a (Nat.succ_pos n) (by simp)
      rw [List.find?_cons, ha]
      exact ih n x (by simpa using hx) hp
        (fun j y hj hy => hbefore (j + 1) y (by omega) (by simpa using hy))

/-- C10: when several records match the query's isbn case-insensitively,
`rechercher_par_isbn` returns the one at the smallest index: if the record
at index `i` matches and no record at a smaller index does, that record is
the result. -/
theorem rechercher_par_isbn_first_match (b : Bibliotheque) (q : String)
    (i : Nat) (l : Livre)
    (hi : b.livres[i]? = some l)
    (hmatch : lowered l.isbn = lowered q)
    (hbefore : ∀ j l', j < i → b.livres[j]? = some l' →
      lowered l'.isbn ≠ lowered q) :
    b.rechercher_par_isbn q = some l := by
  unfold Bibliotheque.rechercher_par_isbn
  refine find?_eq_of_first_index _ b.livres i l hi (by simp [hmatch]) ?_
  intro j y hj hy
  have := hbefore j y hj hy
  simpa using this

/-- Witness for C10: two records share the isbn "X" up to case; the first
one is returned. -/
theorem rechercher_par_isbn_first_match_witness :
    lowered (⟨"A", "a", "X", 1⟩ : Livre).isbn = lowered "x" ∧
    Bibliotheque.rechercher_par_isbn
        ⟨[⟨"A", "a", "X", 1⟩, ⟨"B", "b", "X", 2⟩], "bibliotheque.json"⟩ "x"
      = some ⟨"A", "a", "X", 1⟩ :=
  ⟨by decide,
   rechercher_par_isbn_first_match
     ⟨[⟨"A", "a", "X", 1⟩, ⟨"B", "b", "X", 2⟩], "bibliotheque.json"⟩ "x" 0
     ⟨"A", "a", "X", 1⟩ rfl (by decide)
     (fun j l' hj _ => absurd hj (Nat.not_lt_zero j))⟩

/-- Helper for C1: along a sequence of `ajouter_livre` calls in a world
where writes succeed, the bound path is kept, writes keep succeeding, and
after at least one call the backing file holds the serialization of the
final in-memory catalog. -/
theorem addAll_file_invariant (ls : List Livre) :
    ∀ (b : Bibliotheque) (w : World), w.writeOk = true →
      (addAll b w ls).1.fichier = b.fichier ∧
      (addAll b w ls).2.writeOk = true ∧
      ((addAll b w ls).2.file
          = some (.jsonText (encodeCatalog (addAll b w ls).1.livres)) ∨
        (ls = [] ∧ addAll b w ls = (b, w))) := by
  induction ls with
  | nil =>
    intro b w hw
    exact ⟨rfl, hw, Or.inr ⟨rfl, rfl⟩⟩
  | cons l t ih =>
    intro b w hw
    have hstep : b.ajouter_livre l w =
        ({ b with livres := b.livres ++ [l] },
         { w with file := some (.jsonText (encodeCatalog (b.livres ++ [l]))) },
         none) := by
      unfold Bibliotheque.ajouter_livre Bibliotheque.sauvegarder_donnees
      simp [hw]
    have hunfold : addAll b w (l :: t)
        = addAll { b with livres := b.livres ++ [l] }
            { w with file := some (.jsonText (encodeCatalog (b.livres ++ [l]))) } t := by
      rw [addAll, hstep]
    obtain ⟨h1, h2, h3⟩ := ih { b with livres := b.livres ++ [l] }
      { w with file := some (.jsonText (encodeCatalog (b.livres ++ [l]))) } hw
    rw [hunfold]
    refine ⟨h1, h2, ?_⟩
    cases h3 with
    | inl hfile => exact Or.inl hfile
    | inr hnil => exact Or.inl (by rw [hnil.2])

/-- C1: save/load round-trip.  First, after any successful save, loading
the backing file into a fresh store at the same path returns exactly the
record sequence that was in memory at the time of that save.  Second, for
any non-empty sequence of `ajouter_livre` calls in a world where writes
succeed (so the last save is the final one), loading returns exactly the
final in-memory record sequence. -/
theorem save_load_roundtrip (b : Bibliotheque) (w w' : World) (ls : List Livre)
    (hsave : b.sauvegarder_donnees w = .ok w')
    (hw : w.writeOk = true) (hne : ls ≠ []) :
    (Bibliotheque.charger_donnees ⟨[], b.fichier⟩ w' = .ok ⟨b.livres, b.fichier⟩) ∧
    Bibliotheque.charger_donnees ⟨[], b.fichier⟩ (addAll b w ls).2
      = .ok ⟨(addAll b w ls).1.livres, b.fichier⟩ := by
  constructor
  · unfold Bibliotheque.sauvegarder_donnees at hsave
    rw [if_pos hw] at hsave
    have hfile : w'.file = some (.jsonText (encodeCatalog b.livres)) := by
      cases hsave
      rfl
    simp [Bibliotheque.charger_donnees, hfile, decodeCatalog_encodeCatalog]
  · obtain ⟨h1, h2, h3⟩ := addAll_file_invariant ls b w hw
    cases h3 with
    | inr hnil => exact absurd hnil.1 hne
    | inl hfile =>
      simp [Bibliotheque.charger_donnees, hfile, decodeCatalog_encodeCatalog]

/-- Witness for C1: adding one record to a fresh store backed by a missing
file, then loading, returns that record. -/
theorem save_load_roundtrip_witness :
    ([⟨"Dune", "Frank Herbert", "0441013597", 1965⟩] : List Livre) ≠ [] ∧
    Bibliotheque.charger_donnees ⟨[], "bibliotheque.json"⟩
        (addAll ⟨[], "bibliotheque.json"⟩ ⟨none, true⟩
          [⟨"Dune", "Frank Herbert", "0441013597", 1965⟩]).2
      = .ok ⟨(addAll ⟨[], "bibliotheque.json"⟩ ⟨none, true⟩
          [⟨"Dune", "Frank Herbert", "0441013597", 1965⟩]).1.livres,
          "bibliotheque.json"⟩ :=
  ⟨by decide,
   (save_load_roundtrip ⟨[], "bibliotheque.json"⟩ ⟨none, true⟩
     ⟨some (.jsonText (encodeCatalog [])), true⟩
     [⟨"Dune", "Frank Herbert", "0441013597", 1965⟩] rfl rfl (by decide)).2⟩

/-- C7: the load contract on a fresh store — a missing file loads
successfully as the empty sequence; an existing empty file loads
successfully as the empty sequence; an existing non-empty file whose
content does not parse as the expected JSON structure (malformed text, or
a JSON value not of the catalog shape) makes the load return a failure. -/
theorem charger_donnees_contract (f : String) (w : World) :
    (w.file = none →
      Bibliotheque.charger_donnees ⟨[], f⟩ w = .ok ⟨[], f⟩) ∧
    (w.file = some .emptyText →
      Bibliotheque.charger_donnees ⟨[], f⟩ w = .ok ⟨[], f⟩) ∧
    (w.file = some .malformedText →
      Bibliotheque.charger_donnees ⟨[], f⟩ w = .error .parseFailure) ∧
    (∀ j, w.file = some (.jsonText j) → decodeCatalog j = none →
      Bibliotheque.charger_donnees ⟨[], f⟩ w = .error .parseFailure) := by
  refine ⟨fun h => ?_, fun h => ?_, fun h => ?_, fun j hj hd => ?_⟩
  · simp [Bibliotheque.charger_donnees, h]
  · simp [Bibliotheque.charger_donnees, h]
  · simp [Bibliotheque.charger_donnees, h]
  · simp [Bibliotheque.charger_donnees, hj, hd]

/-- C8: constructing a store on a file that exists, is non-empty, and fails
to parse (malformed text, or a JSON value not of the catalog shape) still
succeeds, swallows the load failure, yields an empty in-memory catalog,
and leaves the world unchanged. -/
theorem new_swallows_parse_failure (f : String) (w : World) :
    (w.file = some .malformedText →
      Bibliotheque.new f w = (⟨[], f⟩, w)) ∧
    (∀ j, w.file = some (.jsonText j) → decodeCatalog j = none →
      Bibliotheque.new f w = (⟨[], f⟩, w)) := by
  refine ⟨fun h => ?_, fun j hj hd => ?_⟩
  · simp [Bibliotheque.new, Bibliotheque.charger_donnees, h]
  · simp [Bibliotheque.new, Bibliotheque.charger_donnees, hj, hd]

/-- C9: constructing a store on a missing file yields the empty catalog and
performs no write — the world (hence the missing file) is unchanged; the
file appears as soon as the first successful mutating call saves (an
`ajouter_livre` creates it), while a failing `retirer_livre` on the still
empty catalog does not create it. -/
theorem new_missing_file_no_write (f : String) (w : World) (l : Livre) (i : Nat)
    (hfile : w.file = none) (hw : w.writeOk = true) :
    Bibliotheque.new f w = (⟨[], f⟩, w) ∧
    ((Bibliotheque.new f w).1.ajouter_livre l (Bibliotheque.new f w).2).2.1.file
      = some (.jsonText (encodeCatalog [l])) ∧
    ((Bibliotheque.new f w).1.retirer_livre i (Bibliotheque.new f w).2).2.1.file
      = none := by
  have hnew : Bibliotheque.new f w = (⟨[], f⟩, w) := by
    simp [Bibliotheque.new, Bibliotheque.charger_donnees, hfile]
  refine ⟨hnew, ?_, ?_⟩
  · rw [hnew]
    simp [Bibliotheque.ajouter_livre, Bibliotheque.sauvegarder_donnees, hw]
  · rw [hnew]
    simp [Bibliotheque.retirer_livre, hfile]

/-- Witness for C9: constructing on a missing file changes nothing, and the
first add creates the file with the one-record catalog. -/
theorem new_missing_file_no_write_witness :
    (⟨none, true⟩ : World).file = none ∧
    Bibliotheque.new "bibliotheque.json" ⟨none, true⟩
      = (⟨[], "bibliotheque.json"⟩, ⟨none, true⟩) :=
  ⟨rfl,
   (new_missing_file_no_write "bibliotheque.json" ⟨none, true⟩
     ⟨"Dune", "Frank Herbert", "0441013597", 1965⟩ 0 rfl rfl).1⟩
